import Mathlib

/-!
Verification development for the pyfair FAIR-model calculation engine.

The definitions below are a shallow embedding of the core modules:
  pyfair/model/model_tree.py  (FairDependencyTree, FairDependencyNode)
  pyfair/model/model_calc.py  (FairCalculations)
  pyfair/model/model_input.py (FairDataInput)
  pyfair/model/model.py       (FairModel)
  pyfair/utility/beta_pert.py (FairBetaPert)

Python floats are modelled as rationals, numpy vectors as lists of
rationals, dicts as insertion-ordered association lists, and exceptions
as an Except monad.  The numpy process-global random stream is modelled
as an abstract state (seed, offset) together with an abstract
observation function rng_value; the claims settled here never depend on
the concrete values of random draws.
-/

set_option maxHeartbeats 1600000
set_option maxRecDepth 100000

namespace Pyfair

/-- Node statuses, from model_node.py ("Not Required" is one status). -/
inductive Status where
  | required
  | notRequired
  | supplied
  | calculable
  | calculated
deriving DecidableEq, Repr, Fintype

/-- The 13 fixed taxonomy nodes, from FairDependencyTree._node_names. -/
inductive NodeName where
  | risk
  | lossEventFrequency
  | threatEventFrequency
  | vulnerability
  | contactFrequency
  | probabilityOfAction
  | threatCapability
  | controlStrength
  | lossMagnitude
  | primaryLoss
  | secondaryLoss
  | secondaryLossEventFrequency
  | secondaryLossEventMagnitude
deriving DecidableEq, Repr, Fintype

open NodeName Status

/-- Child links, from FairDependencyTree._link_nodes (in add_child order). -/
def children : NodeName → List NodeName
  | risk => [lossEventFrequency, lossMagnitude]
  | lossEventFrequency => [threatEventFrequency, vulnerability]
  | threatEventFrequency => [contactFrequency, probabilityOfAction]
  | vulnerability => [controlStrength, threatCapability]
  | lossMagnitude => [primaryLoss, secondaryLoss]
  | secondaryLoss => [secondaryLossEventFrequency, secondaryLossEventMagnitude]
  | _ => []

/-- Parent links, the inverse of the add_child calls. -/
def parent : NodeName → Option NodeName
  | risk => none
  | lossEventFrequency => some risk
  | lossMagnitude => some risk
  | threatEventFrequency => some lossEventFrequency
  | vulnerability => some lossEventFrequency
  | contactFrequency => some threatEventFrequency
  | probabilityOfAction => some threatEventFrequency
  | controlStrength => some vulnerability
  | threatCapability => some vulnerability
  | primaryLoss => some lossMagnitude
  | secondaryLoss => some lossMagnitude
  | secondaryLossEventFrequency => some secondaryLoss
  | secondaryLossEventMagnitude => some secondaryLoss

/-- All nodes of the subtree rooted at a node (the node itself first,
then the DFS of its children), matching the recursion of
_propogate_down / _obtain_leaf_nodes over the hard-coded topology. -/
def subtree : NodeName → List NodeName
  | risk => [risk, lossEventFrequency, threatEventFrequency, contactFrequency,
             probabilityOfAction, vulnerability, controlStrength, threatCapability,
             lossMagnitude, primaryLoss, secondaryLoss,
             secondaryLossEventFrequency, secondaryLossEventMagnitude]
  | lossEventFrequency => [lossEventFrequency, threatEventFrequency, contactFrequency,
             probabilityOfAction, vulnerability, controlStrength, threatCapability]
  | threatEventFrequency => [threatEventFrequency, contactFrequency, probabilityOfAction]
  | vulnerability => [vulnerability, controlStrength, threatCapability]
  | lossMagnitude => [lossMagnitude, primaryLoss, secondaryLoss,
             secondaryLossEventFrequency, secondaryLossEventMagnitude]
  | secondaryLoss => [secondaryLoss, secondaryLossEventFrequency, secondaryLossEventMagnitude]
  | n => [n]

/-- Height of a node above the leaves (for termination of the
recursive downward propagation; the tree has max depth 3 from root). -/
def height : NodeName → Nat
  | risk => 3
  | lossEventFrequency => 2
  | lossMagnitude => 2
  | threatEventFrequency => 1
  | vulnerability => 1
  | secondaryLoss => 1
  | _ => 0

/-- Strict descendants of a node (the subtrees of its children). -/
def desc_list (n : NodeName) : List NodeName :=
  (children n).foldr (fun c acc => subtree c ++ acc) []

/-- Strict ancestors of a node, nearest first (the parent chain). -/
def ancestors : NodeName → List NodeName
  | risk => []
  | lossEventFrequency => [risk]
  | lossMagnitude => [risk]
  | threatEventFrequency => [lossEventFrequency, risk]
  | vulnerability => [lossEventFrequency, risk]
  | contactFrequency => [threatEventFrequency, lossEventFrequency, risk]
  | probabilityOfAction => [threatEventFrequency, lossEventFrequency, risk]
  | controlStrength => [vulnerability, lossEventFrequency, risk]
  | threatCapability => [vulnerability, lossEventFrequency, risk]
  | primaryLoss => [lossMagnitude, risk]
  | secondaryLoss => [lossMagnitude, risk]
  | secondaryLossEventFrequency => [secondaryLoss, lossMagnitude, risk]
  | secondaryLossEventMagnitude => [secondaryLoss, lossMagnitude, risk]

/-- Leaf nodes in the order FairDependencyTree._obtain_leaf_nodes
collects them (DFS from the root). -/
def leaves_list : List NodeName :=
  [contactFrequency, probabilityOfAction, controlStrength, threatCapability,
   primaryLoss, secondaryLossEventFrequency, secondaryLossEventMagnitude]

/-- All 13 nodes in the order FairDependencyTree._obtain_status writes
the status dict (DFS from the root). -/
def dfs_list : List NodeName :=
  [risk, lossEventFrequency, threatEventFrequency, contactFrequency,
   probabilityOfAction, vulnerability, controlStrength, threatCapability,
   lossMagnitude, primaryLoss, secondaryLoss,
   secondaryLossEventFrequency, secondaryLossEventMagnitude]

/-- Statuses that allow a parent to be promoted to Calculable,
from _propogate_up: Calculable, Calculated or Supplied. -/
def allows_calculation (st : Status) : Bool :=
  match st with
  | calculable => true
  | calculated => true
  | supplied => true
  | _ => false

/-- A status assignment for all 13 nodes (the node.status attributes). -/
abbrev StatusMap : Type := NodeName → Status

/-- One step of _propogate_up seen from a child: if the parent is still
Required and every child of the parent allows calculation, the parent
becomes Calculable; any other parent status is left alone. -/
def step_up (p : NodeName) (s : StatusMap) : StatusMap :=
  if s p = required ∧ (children p).all (fun c => allows_calculation (s c)) then
    Function.update s p calculable
  else s

/-- FairDependencyTree._propogate_down: set the node to "Not Required"
and recurse into its children.  Structured with fuel; fuel 13 exceeds
every height in the fixed tree. -/
def propogate_down : Nat → StatusMap → NodeName → StatusMap
  | 0, s, _ => s
  | fuel + 1, s, n =>
      (children n).foldl (propogate_down fuel) (Function.update s n notRequired)

/-- FairDependencyTree._propogate_up: inspect the parent of the node,
possibly promote it, then recurse from the parent towards the root. -/
def propogate_up : Nat → StatusMap → NodeName → StatusMap
  | 0, s, _ => s
  | fuel + 1, s, n =>
      match parent n with
      | none => s
      | some p => propogate_up fuel (step_up p s) p

/-- Apply the step_up promotions named by a list, left to right. -/
def steps_apply (l : List NodeName) (s : StatusMap) : StatusMap :=
  l.foldl (fun m p => step_up p m) s

/-- The exact sequence of parent checks performed by the seven
_propogate_up walks of one Supplied event, in order: the walks start at
the leaves in leaves_list order and each climbs to the root. -/
def steps_list : List NodeName :=
  [threatEventFrequency, lossEventFrequency, risk,
   threatEventFrequency, lossEventFrequency, risk,
   vulnerability, lossEventFrequency, risk,
   vulnerability, lossEventFrequency, risk,
   lossMagnitude, risk,
   secondaryLoss, lossMagnitude, risk,
   secondaryLoss, lossMagnitude, risk]

/-- FairDependencyTree state: the per-node statuses plus whether the
_node_statuses cache dict has ever been filled.  The cache starts as an
empty dict and _obtain_status rewrites every entry at the end of each
update_status call, so it is either empty or synchronized. -/
structure Tree where
  statuses : StatusMap
  cacheFilled : Bool

/-- A freshly constructed FairDependencyTree: every node Required and
an empty _node_statuses dict. -/
def fresh_tree : Tree :=
  { statuses := fun _ => required, cacheFilled := false }

/-- FairDependencyTree.update_status.  On Supplied: set the node, run
_propogate_down from each child, then _propogate_up from every leaf.
On Calculated: set the node only.  Every call ends by refreshing the
status cache via _obtain_status. -/
def Tree.update_status (t : Tree) (n : NodeName) (st : Status) : Tree :=
  if st = supplied then
    let s1 := Function.update t.statuses n supplied
    let s2 := (children n).foldl (propogate_down 13) s1
    let s3 := leaves_list.foldl (propogate_up 13) s2
    { statuses := s3, cacheFilled := true }
  else if st = calculated then
    { statuses := Function.update t.statuses n calculated, cacheFilled := true }
  else
    { statuses := t.statuses, cacheFilled := true }

/-- FairDependencyTree.get_node_statuses: the _node_statuses dict,
written in DFS order by _obtain_status; empty before the first
update_status call. -/
def Tree.get_node_statuses (t : Tree) : List (NodeName × Status) :=
  if t.cacheFilled then dfs_list.map (fun n => (n, t.statuses n)) else []

/-- FairDependencyTree.ready_for_calculation: False iff the string
"Required" occurs among the cached status values. -/
def Tree.ready_for_calculation (t : Tree) : Bool :=
  !(t.get_node_statuses.any (fun p => p.2 = required))

/-- FairDependencyTree.calculation_completed: root Calculated or
Supplied. -/
def Tree.calculation_completed (t : Tree) : Bool :=
  t.statuses risk = calculated || t.statuses risk = supplied

/-! ## FairCalculations (model_calc.py) -/

/-- FairCalculations._calculate_step_average: an element-wise boolean
comparison child_1 < child_2 (True as 1, False as 0), whose mean is then
broadcast over the whole vector length. -/
def calculate_step_average (child_1_data child_2_data : List ℚ) : List ℚ :=
  let bool_series := List.zipWith (fun x y => if x < y then (1 : ℚ) else 0)
    child_1_data child_2_data
  let bool_scalar_average := bool_series.sum / (bool_series.length : ℚ)
  List.replicate bool_series.length bool_scalar_average

/-- FairCalculations._calculate_addition: element-wise sum. -/
def calculate_addition (child_1_data child_2_data : List ℚ) : List ℚ :=
  List.zipWith (· + ·) child_1_data child_2_data

/-- FairCalculations._calculate_multiplication: element-wise product. -/
def calculate_multiplication (child_1_data child_2_data : List ℚ) : List ℚ :=
  List.zipWith (· * ·) child_1_data child_2_data

/-- FairCalculations._function_dict: the fixed dispatch table from node
identity to combinator (leaf nodes have no entry). -/
def function_dict : NodeName → Option (List ℚ → List ℚ → List ℚ)
  | risk => some calculate_multiplication
  | lossEventFrequency => some calculate_multiplication
  | threatEventFrequency => some calculate_multiplication
  | vulnerability => some calculate_step_average
  | lossMagnitude => some calculate_addition
  | primaryLoss => some calculate_multiplication
  | secondaryLoss => some calculate_multiplication
  | _ => none

/-- FairCalculations.calculate: dispatch through _function_dict (a
missing key would be a Python KeyError; modelled as none). -/
def calculate (parent_name : NodeName) (child_1_data child_2_data : List ℚ) :
    Option (List ℚ) :=
  (function_dict parent_name).map (fun f => f child_1_data child_2_data)

/-! ## Errors and the random stream -/

/-- The failure modes reached by the embedded code paths.  FairException
carriers keep the data that the Python message interpolates; notReady
carries the full per-node status snapshot that calculate_all renders
into its message. -/
inductive FairErr where
  | notReady (statuses : List (NodeName × Status))
  | keyError (key : String)
  | unrecognizedKeyword (kw : String)
  | mixedKeywords
  | missingKeyword (kw : String)
  | lessThanZero (kw : String)
  | mustBeBetweenZeroAndOne (target kw : String)
  | lowMustBeLessThanHigh
  | pertConditionFailed (cond : String)
  | indexError
deriving DecidableEq, Repr

/-- The numpy process-global Mersenne Twister state, abstracted as the
last seed applied together with the number of values drawn since. -/
abbrev RngState : Type := ℤ × ℕ

/-- np.random.seed: reset the process-global stream. -/
def np_seed (s : ℤ) : RngState := (s, 0)

/-- Abstract observation of the numpy stream at a given state.  The
concrete numpy values are irrelevant to every claim settled here; the
model only relies on the draws being a deterministic function of the
global state (distinct seeds give distinct streams). -/
def rng_value (st : RngState) : ℚ := (st.1 : ℚ) + (st.2 : ℚ)

/-- Advance the global stream after drawing count values. -/
def rng_advance (st : RngState) (count : ℕ) : RngState := (st.1, st.2 + count)

/-! ## FairBetaPert (utility/beta_pert.py) -/

/-- The frozen scipy.stats.beta(a, b, loc, scale) object built by
FairBetaPert.__init__. -/
structure BetaCurve where
  a : ℚ
  b : ℚ
  loc : ℚ
  scale : ℚ
deriving DecidableEq, Repr

/-- FairBetaPert with its precomputed members. -/
structure FairBetaPert where
  low : ℚ
  mode : ℚ
  high : ℚ
  gamma : ℚ
  range : ℚ
  mean : ℚ
  stdev : ℚ
  alpha : ℚ
  beta : ℚ
  curve : BetaCurve
deriving DecidableEq, Repr

/-- FairBetaPert.__init__: the range check followed by the mean, stdev,
alpha and beta computations of _generate_mean, _generate_stdev,
_generate_alpha and _generate_beta, and the scipy.stats.beta curve
with shape (alpha, beta), loc low and scale range. -/
def mkFairBetaPert (low mode high gamma : ℚ) : Except FairErr FairBetaPert :=
  let range := high - low
  if range = 0 then .error .lowMustBeLessThanHigh
  else
    let mean := (low + gamma * mode + high) / (gamma + 2)
    let stdev := (high - low) / (gamma + 2)
    let group_1 := (mean - low) / (high - low)
    let group_2 := (mean - low) * (high - mean) / stdev ^ 2
    let alpha := group_1 * (group_2 - 1)
    let beta := alpha * (high - mean) / (mean - low)
    .ok { low := low, mode := mode, high := high, gamma := gamma,
          range := range, mean := mean, stdev := stdev,
          alpha := alpha, beta := beta,
          curve := { a := alpha, b := beta, loc := low, scale := range } }

/-- FairBetaPert.random_variates: scipy rvs on the frozen four-parameter
beta curve.  scipy draws a standard Beta(a, b) variate and applies the
documented loc-scale transform; the underlying standard draws are the
abstract stream f of the shape parameters and the draw index. -/
def FairBetaPert.random_variates (p : FairBetaPert) (f : ℚ → ℚ → ℕ → ℚ)
    (count : ℕ) : List ℚ :=
  (List.range count).map (fun i => p.curve.loc + p.curve.scale * f p.curve.a p.curve.b i)

/-! ## Spec-side PERT formulas (section 4.2 of the spec, for the
refinement comparison of claim C7) -/

/-- Modelled from the spec: mean = (low + gamma*mode + high)/(gamma + 2). -/
def pert_spec_mean (low mode high gamma : ℚ) : ℚ :=
  (low + gamma * mode + high) / (gamma + 2)

/-- Modelled from the spec: stdev = (high - low)/(gamma + 2). -/
def pert_spec_stdev (low _mode high gamma : ℚ) : ℚ :=
  (high - low) / (gamma + 2)

/-- Modelled from the spec: alpha = ((mean - low)/(high - low)) *
(((mean - low)*(high - mean))/stdev^2 - 1). -/
def pert_spec_alpha (low mode high gamma : ℚ) : ℚ :=
  let mean := pert_spec_mean low mode high gamma
  let stdev := pert_spec_stdev low mode high gamma
  ((mean - low) / (high - low)) * ((mean - low) * (high - mean) / stdev ^ 2 - 1)

/-- Modelled from the spec: beta = alpha*(high - mean)/(mean - low). -/
def pert_spec_beta (low mode high gamma : ℚ) : ℚ :=
  let mean := pert_spec_mean low mode high gamma
  pert_spec_alpha low mode high gamma * (high - mean) / (mean - low)

/-! ## FairDataInput (model_input.py)

Python keyword-argument dicts are insertion-ordered association lists
from keyword strings to rationals. -/

abbrev ParamDict : Type := List (String × ℚ)

/-- Dict key lookup. -/
def dict_get (d : ParamDict) (k : String) : Option ℚ :=
  (d.find? (fun p => p.1 = k)).map Prod.snd

/-- Dict key membership. -/
def dict_has (d : ParamDict) (k : String) : Bool :=
  d.any (fun p => p.1 = k)

/-- Python dict assignment d[k] = v: replace in place when the key
exists, otherwise append at the end. -/
def dict_set (d : ParamDict) (k : String) (v : ℚ) : ParamDict :=
  if dict_has d k then d.map (fun p => if p.1 = k then (k, v) else p)
  else d ++ [(k, v)]

/-- The outer supplied-values store of FairDataInput: target string to
recorded kwargs, insertion ordered. -/
abbrev SuppliedMap : Type := List (String × ParamDict)

/-- Assignment into _supplied_values. -/
def supplied_set (d : SuppliedMap) (k : String) (v : ParamDict) : SuppliedMap :=
  if d.any (fun p => p.1 = k) then d.map (fun p => if p.1 = k then (k, v) else p)
  else d ++ [(k, v)]

/-- FairDataInput._le_1_targets. -/
def le_1_targets : List String :=
  ["Probability of Action", "Vulnerability", "Control Strength", "Threat Capability"]

/-- FairDataInput._le_1_keywords. -/
def le_1_keywords : List String :=
  ["constant", "high", "mode", "low", "mean"]

/-- The three generator functions of FairDataInput. -/
inductive GenFunc where
  | genConstant
  | genPert
  | genNormal
deriving DecidableEq, Repr

/-- FairDataInput._parameter_map: keyword to generator function.  Only
the keyword "mode" is mapped for PERT; "most_likely" is not a key. -/
def parameter_map : String → Option GenFunc
  | "constant" => some .genConstant
  | "high" => some .genPert
  | "mode" => some .genPert
  | "low" => some .genPert
  | "gamma" => some .genPert
  | "mean" => some .genNormal
  | "stdev" => some .genNormal
  | _ => none

/-- FairDataInput._required_keywords. -/
def required_keywords : GenFunc → List String
  | .genConstant => ["constant"]
  | .genPert => ["low", "mode", "high"]
  | .genNormal => ["mean", "stdev"]

/-- FairDataInput._check_le_1: for bounded targets, every relevant
keyword value must lie in the unit interval; the scan follows dict
order and raises at the first offender. -/
def check_le_1 (target : String) (kwargs : ParamDict) : Except FairErr Unit :=
  match kwargs.find? (fun p =>
      le_1_keywords.contains p.1 && le_1_targets.contains target
        && !(decide (0 ≤ p.2 ∧ p.2 ≤ 1))) with
  | some p => .error (.mustBeBetweenZeroAndOne target p.1)
  | none => .ok ()

/-- FairDataInput._check_parameters: the negative-value scan over the
relevant keywords followed by the required-keyword presence check. -/
def check_parameters (f : GenFunc) (kwargs : ParamDict) : Except FairErr Unit :=
  match kwargs.find? (fun p =>
      ["mean", "constant", "low", "mode", "high"].contains p.1
        && decide (p.2 < 0)) with
  | some p => .error (.lessThanZero p.1)
  | none =>
    match (required_keywords f).find? (fun k => !(dict_has kwargs k)) with
    | some k => .error (.missingKeyword k)
    | none => .ok ()

/-- FairDataInput._determine_func: reject the first keyword missing from
_parameter_map, then require that all keywords map to one single
generator function. -/
def determine_func (kwargs : ParamDict) : Except FairErr GenFunc :=
  match kwargs.find? (fun p => (parameter_map p.1).isNone) with
  | some p => .error (.unrecognizedKeyword p.1)
  | none =>
    match (kwargs.filterMap (fun p => parameter_map p.1)).dedup with
    | [] => .error .indexError
    | [f] => .ok f
    | _ => .error .mixedKeywords

/-- FairDataInput._gen_constant: np.full(count, kwargs["constant"]). -/
def gen_constant (count : ℕ) (kwargs : ParamDict) :
    Except FairErr (List ℚ) :=
  match dict_get kwargs "constant" with
  | some c => .ok (List.replicate count c)
  | none => .error (.keyError "constant")

/-- FairDataInput._gen_normal: scipy.stats.norm(mean, stdev).rvs(count)
drawn from the process-global stream. -/
def gen_normal (count : ℕ) (kwargs : ParamDict) (rng : RngState) :
    Except FairErr (List ℚ × RngState) :=
  match dict_get kwargs "mean" with
  | none => .error (.keyError "mean")
  | some mean =>
    match dict_get kwargs "stdev" with
    | none => .error (.keyError "stdev")
    | some stdev =>
      .ok ((List.range count).map
            (fun i => mean + stdev * rng_value (rng.1, rng.2 + i)),
          rng_advance rng count)

/-- FairDataInput._check_pert: look up mode, low and high (a missing key
is a Python KeyError) and test mode >= low then high >= mode. -/
def check_pert (kwargs : ParamDict) : Except FairErr (ℚ × ℚ × ℚ) :=
  match dict_get kwargs "mode" with
  | none => .error (.keyError "mode")
  | some mode =>
    match dict_get kwargs "low" with
    | none => .error (.keyError "low")
    | some low =>
      match dict_get kwargs "high" with
      | none => .error (.keyError "high")
      | some high =>
        if ¬(mode ≥ low) then .error (.pertConditionFailed "mode >= low")
        else if ¬(high ≥ mode) then .error (.pertConditionFailed "high >= mode")
        else .ok (low, mode, high)

/-- FairDataInput._gen_pert: _check_pert, FairBetaPert (gamma defaults
to 4 when not supplied) and random_variates from the global stream. -/
def gen_pert (count : ℕ) (kwargs : ParamDict) (rng : RngState) :
    Except FairErr (List ℚ × RngState) := do
  let (low, mode, high) ← check_pert kwargs
  let gamma := (dict_get kwargs "gamma").getD 4
  let p ← mkFairBetaPert low mode high gamma
  .ok (p.random_variates (fun _ _ i => rng_value (rng.1, rng.2 + i)) count,
       rng_advance rng count)

/-- np.clip(x, 0.0, 1.0) on one element. -/
def clip_0_1 (x : ℚ) : ℚ := if x < 0 then 0 else if 1 < x then 1 else x

/-- np.clip(x, 0.0, np.inf) on one element. -/
def clip_0_inf (x : ℚ) : ℚ := if x < 0 then 0 else x

/-- FairDataInput._generate_single: bounded-target validation, function
determination, parameter checks, the generator itself and the final
clip. -/
def generate_single (target : String) (count : ℕ) (kwargs : ParamDict)
    (rng : RngState) : Except FairErr (List ℚ × RngState) := do
  if le_1_targets.contains target then check_le_1 target kwargs else .ok ()
  let func ← determine_func kwargs
  check_parameters func kwargs
  let (results, rng') ←
    match func with
    | .genConstant => (gen_constant count kwargs).map (fun v => (v, rng))
    | .genNormal => gen_normal count kwargs rng
    | .genPert => gen_pert count kwargs rng
  if le_1_targets.contains target then
    .ok (results.map clip_0_1, rng')
  else
    .ok (results.map clip_0_inf, rng')

/-! ## FairModel (model.py) -/

/-- FairModel._target_map: the twelve abbreviations plus their
lowercase forms, in dict insertion order. -/
def target_map : List (String × String) :=
  [("LEF", "Loss Event Frequency"),
   ("TEF", "Threat Event Frequency"),
   ("V", "Vulnerability"),
   ("C", "Contact Frequency"),
   ("A", "Probability of Action"),
   ("TC", "Threat Capability"),
   ("CS", "Control Strength"),
   ("LM", "Loss Magnitude"),
   ("PL", "Primary Loss"),
   ("SL", "Secondary Loss"),
   ("SLEF", "Secondary Loss Event Frequency"),
   ("SLEM", "Secondary Loss Event Magnitude"),
   ("lef", "Loss Event Frequency"),
   ("tef", "Threat Event Frequency"),
   ("v", "Vulnerability"),
   ("c", "Contact Frequency"),
   ("a", "Probability of Action"),
   ("tc", "Threat Capability"),
   ("cs", "Control Strength"),
   ("lm", "Loss Magnitude"),
   ("pl", "Primary Loss"),
   ("sl", "Secondary Loss"),
   ("slef", "Secondary Loss Event Frequency"),
   ("slem", "Secondary Loss Event Magnitude")]

/-- FairModel._standardize_target: map an abbreviation to its full
name, otherwise leave the string unchanged. -/
def standardize_target (target : String) : String :=
  match target_map.find? (fun p => p.1 = target) with
  | some p => p.2
  | none => target

/-- The dict lookup self._tree.nodes[name]: the 13 node-name strings of
FairDependencyTree._node_names; any other string is a KeyError. -/
def to_node_name : String → Option NodeName
  | "Risk" => some risk
  | "Loss Event Frequency" => some lossEventFrequency
  | "Threat Event Frequency" => some threatEventFrequency
  | "Vulnerability" => some vulnerability
  | "Contact Frequency" => some contactFrequency
  | "Probability of Action" => some probabilityOfAction
  | "Threat Capability" => some threatCapability
  | "Control Strength" => some controlStrength
  | "Loss Magnitude" => some lossMagnitude
  | "Primary Loss" => some primaryLoss
  | "Secondary Loss" => some secondaryLoss
  | "Secondary Loss Event Frequency" => some secondaryLossEventFrequency
  | "Secondary Loss Event Magnitude" => some secondaryLossEventMagnitude
  | _ => none

/-- The FairModel state: simulation count, the captive dependency tree,
the model table of per-node vectors, the recorded supplied parameters,
and the numpy global random state as this single model observes it. -/
structure FairModel where
  n_simulations : ℕ
  tree : Tree
  table : NodeName → Option (List ℚ)
  supplied : SuppliedMap
  rng : RngState

/-- FairModel.__init__: fresh tree, empty table and parameter record,
np.random.seed(random_seed) applied to the global stream. -/
def mk_fair_model (n_simulations : ℕ) (random_seed : ℤ) : FairModel :=
  { n_simulations := n_simulations,
    tree := fresh_tree,
    table := fun _ => none,
    supplied := [],
    rng := np_seed random_seed }

/-- FairModel.input_data: the mode to most_likely keyword rename,
target standardization, FairDataInput.generate (which records the
kwargs in _supplied_values after inserting the default gamma), the tree
status update through the string-keyed node dict, and the table write.
The returned model carries every mutation made before any exception,
as the Python object would. -/
def input_data (m : FairModel) (target : String) (kwargs : ParamDict) :
    Except FairErr Unit × FairModel :=
  let kwargs :=
    if dict_has kwargs "mode" then
      (dict_set kwargs "most_likely" ((dict_get kwargs "mode").getD 0)).filter
        (fun p => p.1 ≠ "mode")
    else kwargs
  let target := standardize_target target
  match generate_single target m.n_simulations kwargs m.rng with
  | .error e => (.error e, m)
  | .ok (data, rng') =>
    let kwargs :=
      if dict_has kwargs "low" && !(dict_has kwargs "gamma") then
        kwargs ++ [("gamma", 4)]
      else kwargs
    let m := { m with supplied := supplied_set m.supplied target kwargs,
                      rng := rng' }
    match to_node_name target with
    | none => (.error (.keyError target), m)
    | some nd =>
      let m := { m with tree := m.tree.update_status nd supplied }
      let m := { m with table := Function.update m.table nd (some data) }
      (.ok (), m)

/-- FairModel.export_results: the model table. -/
def export_results (m : FairModel) : NodeName → Option (List ℚ) := m.table

/-- FairModel.export_params: the recorded supplied values. -/
def export_params (m : FairModel) : SuppliedMap := m.supplied

/-- The statuses a child must have for _calculate_node to proceed. -/
def child_ready (st : Status) : Bool :=
  st = calculated || st = supplied

/-- FairModel._calculate_node: check both children, fetch the child
vectors (Control Strength first then Threat Capability for
Vulnerability), dispatch the combinator, store the result and mark the
node Calculated; otherwise pass. -/
def calculate_node (m : FairModel) (name : NodeName) : FairModel :=
  match children name with
  | [child_1, child_2] =>
    if child_ready (m.tree.statuses child_1)
        && child_ready (m.tree.statuses child_2) then
      let child_1_data :=
        if name = vulnerability then (m.table controlStrength).getD []
        else (m.table child_1).getD []
      let child_2_data :=
        if name = vulnerability then (m.table threatCapability).getD []
        else (m.table child_2).getD []
      match calculate name child_1_data child_2_data with
      | some calculated_data =>
        let m := { m with table := Function.update m.table name (some calculated_data) }
        { m with tree := m.tree.update_status name calculated }
      | none => m
    else m
  | _ => m

/-- One pass of the while-loop body of FairModel.calculate_all: iterate
over a frozen snapshot of the calculable list, calculating each node if
possible and removing it from the live list once Calculated. -/
def calculate_pass (m : FairModel) (live : List NodeName) :
    List NodeName → FairModel × List NodeName
  | [] => (m, live)
  | name :: rest =>
    let m' := calculate_node m name
    let live' :=
      if m'.tree.statuses name = calculated then live.erase name else live
    calculate_pass m' live' rest

/-- The while-loop of FairModel.calculate_all, with fuel (the loop in
the source terminates because every pass over the fixed 13-node tree
calculates at least one node whose children are resolved). -/
def calculate_loop : ℕ → FairModel → List NodeName → FairModel
  | 0, m, _ => m
  | fuel + 1, m, live =>
    if live.isEmpty then m
    else
      let (m', live') := calculate_pass m live live
      calculate_loop fuel m' live'

/-- FairModel.calculate_all: the not-ready check against the cached
status dict (raising with the full status snapshot), the calculable
list built from the same cached dict in DFS order, and the loop. -/
def calculate_all (m : FairModel) : Except FairErr FairModel :=
  if !(m.tree.ready_for_calculation) then
    .error (.notReady m.tree.get_node_statuses)
  else
    let calculable_nodes :=
      (m.tree.get_node_statuses.filter (fun p => p.2 = calculable)).map Prod.fst
    .ok (calculate_loop 169 m calculable_nodes)

/-! ## Concrete model runs used by several claims -/

/-- A model with 100 simulations and the default seed 42. -/
def model_0 : FairModel := mk_fair_model 100 42

/-- model_0 after input_data("Loss Event Frequency", constant=10). -/
def model_1 : FairModel :=
  (input_data model_0 "Loss Event Frequency" [("constant", 10)]).2

/-- model_1 after input_data("Loss Magnitude", constant=100). -/
def model_2 : FairModel :=
  (input_data model_1 "Loss Magnitude" [("constant", 100)]).2

/-- model_2 after a successful calculate_all (the value the Except
carries; calculate_all_model_2 below proves it is returned as ok). -/
def model_3 : FairModel :=
  calculate_loop 169 model_2
    ((model_2.tree.get_node_statuses.filter (fun p => p.2 = calculable)).map Prod.fst)

/-- model_3 after re-supplying input_data("Loss Event Frequency",
constant=20) — the post-calculation re-supply scenario of claim C6. -/
def model_4 : FairModel :=
  (input_data model_3 "Loss Event Frequency" [("constant", 20)]).2

/-! ## Process-global seeding, two-model interleaving (claim C9)

FairModel.__init__ calls np.random.seed(random_seed) on the process
global generator, and FairDataInput draws from that same global
stream.  The two run shapes below share one global RngState exactly as
the Python process does. -/

/-- Model A constructed with seed_a, then one normal draw of count
values for one of its nodes: no other model touches the process in
between. -/
def run_alone (seed_a : ℤ) (mean stdev : ℚ) (count : ℕ) : List ℚ :=
  let g := np_seed seed_a
  (List.range count).map (fun i => mean + stdev * rng_value (g.1, g.2 + i))

/-- Model A constructed with seed_a, model B constructed with seed_b
(its __init__ reseeds the same process-global generator), then the same
normal draw for model A. -/
def run_interleaved (seed_a seed_b : ℤ) (mean stdev : ℚ) (count : ℕ) : List ℚ :=
  let _gA := np_seed seed_a
  let g := np_seed seed_b
  (List.range count).map (fun i => mean + stdev * rng_value (g.1, g.2 + i))

/-- The six non-leaf nodes (the nodes visited by the upward walks). -/
def internal_nodes : List NodeName :=
  [threatEventFrequency, vulnerability, secondaryLoss,
   lossEventFrequency, lossMagnitude, risk]

/-- The status map after the Supplied assignment and the downward
propagation of update_status(X, Supplied), before the upward walks:
X is Supplied, every strict descendant of X is Not Required, all other
nodes are untouched. -/
def supplied_down_map (s : StatusMap) (X : NodeName) : StatusMap :=
  fun n => if n ∈ desc_list X then notRequired
           else if n = X then supplied else s n

/-- A tree state in which Threat Event Frequency, Threat Capability and
Loss Magnitude have been supplied: supplying Control Strength must then
cascade promotions through Vulnerability, Loss Event Frequency and Risk
in a single event. -/
def tree_c3 : Tree :=
  { statuses := fun n =>
      match n with
      | threatEventFrequency => supplied
      | threatCapability => supplied
      | lossMagnitude => supplied
      | _ => required,
    cacheFilled := true }

/-! ## Lemmas about the upward-propagation steps -/

theorem allows_iff (st : Status) :
    allows_calculation st = true ↔
      st = calculable ∨ st = calculated ∨ st = supplied := by
  cases st <;> simp [allows_calculation]

theorem allows_ne_required {st : Status} (h : allows_calculation st = true) :
    st ≠ required := by
  cases st <;> simp_all [allows_calculation]

theorem step_up_apply_ne (p : NodeName) (s : StatusMap) {n : NodeName}
    (h : n ≠ p) : step_up p s n = s n := by
  unfold step_up
  split
  · exact Function.update_noteq h _ _
  · rfl

theorem step_up_apply_self (p : NodeName) (s : StatusMap) :
    step_up p s p =
      if s p = required ∧ (children p).all (fun c => allows_calculation (s c))
      then calculable else s p := by
  unfold step_up
  split
  · simp [Function.update_same]
  · rfl

theorem step_up_ne_required (p : NodeName) (s : StatusMap) {n : NodeName}
    (h : s n ≠ required) : step_up p s n = s n := by
  by_cases hn : n = p
  · subst hn
    rw [step_up_apply_self]
    split
    · rename_i hc
      exact absurd hc.1 h
    · rfl
  · exact step_up_apply_ne p s hn

theorem step_up_changes (p : NodeName) (s : StatusMap) (n : NodeName) :
    step_up p s n = s n ∨ (s n = required ∧ step_up p s n = calculable) := by
  by_cases hn : n = p
  · subst hn
    rw [step_up_apply_self]
    split
    · rename_i hc
      exact Or.inr ⟨hc.1, rfl⟩
    · exact Or.inl rfl
  · exact Or.inl (step_up_apply_ne p s hn)

theorem steps_apply_nil (s : StatusMap) : steps_apply [] s = s := rfl

theorem steps_apply_cons (p : NodeName) (l : List NodeName) (s : StatusMap) :
    steps_apply (p :: l) s = steps_apply l (step_up p s) := rfl

theorem steps_apply_append (l₁ l₂ : List NodeName) (s : StatusMap) :
    steps_apply (l₁ ++ l₂) s = steps_apply l₂ (steps_apply l₁ s) := by
  unfold steps_apply
  exact List.foldl_append _ _ _ _

theorem steps_apply_not_mem :
    ∀ (l : List NodeName) (s : StatusMap) (n : NodeName), n ∉ l →
      steps_apply l s n = s n := by
  intro l
  induction l with
  | nil => intro s n _; rfl
  | cons p l ih =>
    intro s n h
    have hnp : n ≠ p := fun he => h (by rw [he]; exact List.mem_cons_self p l)
    have hnl : n ∉ l := fun hm => h (List.mem_cons_of_mem p hm)
    rw [steps_apply_cons, ih (step_up p s) n hnl, step_up_apply_ne p s hnp]

theorem steps_apply_ne_required :
    ∀ (l : List NodeName) (s : StatusMap) (n : NodeName), s n ≠ required →
      steps_apply l s n = s n := by
  intro l
  induction l with
  | nil => intro s n _; rfl
  | cons p l ih =>
    intro s n h
    have h1 : step_up p s n = s n := step_up_ne_required p s h
    rw [steps_apply_cons, ih (step_up p s) n (by rw [h1]; exact h), h1]

theorem steps_apply_changes :
    ∀ (l : List NodeName) (s : StatusMap) (n : NodeName),
      steps_apply l s n = s n ∨
        (s n = required ∧ steps_apply l s n = calculable) := by
  intro l
  induction l with
  | nil => intro s n; exact Or.inl rfl
  | cons p l ih =>
    intro s n
    rw [steps_apply_cons]
    rcases step_up_changes p s n with h1 | h1
    · rcases ih (step_up p s) n with h2 | h2
      · exact Or.inl (h2.trans h1)
      · exact Or.inr ⟨h1 ▸ h2.1, h2.2⟩
    · have h2 : steps_apply l (step_up p s) n = step_up p s n :=
        steps_apply_ne_required l _ n (by rw [h1.2]; simp)
      exact Or.inr ⟨h1.1, h2.trans h1.2⟩

theorem steps_apply_allows (l : List NodeName) (s : StatusMap) (n : NodeName)
    (h : allows_calculation (s n) = true) :
    steps_apply l s n = s n :=
  steps_apply_ne_required l s n (allows_ne_required h)

theorem steps_apply_calculable_sound :
    ∀ (l : List NodeName) (s : StatusMap) (A : NodeName),
      steps_apply l s A = calculable →
      s A = calculable ∨
        ∀ c ∈ children A, allows_calculation (steps_apply l s c) = true := by
  intro l
  induction l with
  | nil => intro s A h; exact Or.inl h
  | cons p l ih =>
    intro s A h
    rw [steps_apply_cons] at h
    rcases ih (step_up p s) A h with h1 | h1
    · by_cases hp : A = p
      · rw [hp, step_up_apply_self] at h1
        split at h1
        · rename_i hcond
          right
          intro c hc2
          have hc3 : allows_calculation (s c) = true := by
            rw [← hp] at hcond
            exact List.all_eq_true.mp hcond.2 c hc2
          have hc4 : step_up p s c = s c :=
            step_up_ne_required p s (allows_ne_required hc3)
          rw [steps_apply_cons,
              steps_apply_allows l (step_up p s) c (by rw [hc4]; exact hc3), hc4]
          exact hc3
        · exact Or.inl (hp ▸ h1)
      · rw [step_up_apply_ne p s hp] at h1
        exact Or.inl h1
    · right
      intro c hc
      rw [steps_apply_cons]
      exact h1 c hc

theorem steps_apply_last_check (l₁ l₂ : List NodeName) (A : NodeName)
    (hA : A ∉ l₂) (hcl : ∀ c ∈ children A, c ∉ l₂) (hcA : A ∉ children A)
    (s : StatusMap) (hreq : s A = required) :
    (steps_apply (l₁ ++ A :: l₂) s A = calculable ↔
      ∀ c ∈ children A,
        allows_calculation (steps_apply (l₁ ++ A :: l₂) s c) = true) := by
  rw [steps_apply_append, steps_apply_cons]
  have hfinA : steps_apply l₂ (step_up A (steps_apply l₁ s)) A
      = step_up A (steps_apply l₁ s) A := steps_apply_not_mem l₂ _ A hA
  have hfinc : ∀ c ∈ children A,
      steps_apply l₂ (step_up A (steps_apply l₁ s)) c
        = steps_apply l₁ s c := by
    intro c hc
    have hcne : c ≠ A := fun he => hcA (by rw [he] at hc; exact hc)
    rw [steps_apply_not_mem l₂ _ c (hcl c hc), step_up_apply_ne A _ hcne]
  rw [hfinA]
  rcases steps_apply_changes l₁ s A with h1 | h1
  · rw [step_up_apply_self, h1, hreq]
    by_cases hall : (children A).all
        (fun c => allows_calculation (steps_apply l₁ s c)) = true
    · simp only [hall, and_true, if_pos rfl]
      constructor
      · intro _ c hc
        rw [hfinc c hc]
        exact List.all_eq_true.mp hall c hc
      · intro _
        rfl
    · rw [if_neg (by simp [hall])]
      constructor
      · intro hcontra
        exact absurd hcontra.symm (by simp)
      · intro hc
        exfalso
        apply hall
        exact List.all_eq_true.mpr (fun c hcmem => (hfinc c hcmem) ▸ hc c hcmem)
  · have h2 : step_up A (steps_apply l₁ s) A = steps_apply l₁ s A :=
      step_up_ne_required A _ (by rw [h1.2]; simp)
    rw [h2, h1.2]
    constructor
    · intro _ c hc
      rcases steps_apply_calculable_sound l₁ s A h1.2 with h3 | h3
      · rw [hreq] at h3
        exact absurd h3 (by simp)
      · rw [hfinc c hc]
        exact h3 c hc
    · intro _
      rfl

/-! ## Lemmas about the downward propagation -/

theorem children_height : ∀ r : NodeName, ∀ c ∈ children r, height c < height r := by
  decide

theorem subtree_mem_iff : ∀ r n : NodeName,
    n ∈ subtree r ↔ n = r ∨ ∃ c ∈ children r, n ∈ subtree c := by
  decide

theorem foldl_propogate_down_char :
    ∀ (fuel : ℕ),
      (∀ (r : NodeName), height r < fuel → ∀ (s : StatusMap) (n : NodeName),
        propogate_down fuel s r n
          = if n ∈ subtree r then notRequired else s n) →
      ∀ (l : List NodeName), (∀ c ∈ l, height c < fuel) →
        ∀ (s : StatusMap) (n : NodeName),
          (l.foldl (propogate_down fuel) s) n
            = if ∃ c ∈ l, n ∈ subtree c then notRequired else s n := by
  intro fuel hchar l
  induction l with
  | nil =>
    intro _ s n
    simp
  | cons c l ih =>
    intro hh s n
    have hc : height c < fuel := hh c (List.mem_cons_self c l)
    have hl : ∀ x ∈ l, height x < fuel :=
      fun x hx => hh x (List.mem_cons_of_mem c hx)
    rw [List.foldl_cons, ih hl (propogate_down fuel s c) n, hchar c hc s n]
    by_cases h1 : ∃ x ∈ l, n ∈ subtree x
    · rw [if_pos h1, if_pos ⟨h1.choose, List.mem_cons_of_mem c h1.choose_spec.1,
        h1.choose_spec.2⟩]
    · rw [if_neg h1]
      by_cases h2 : n ∈ subtree c
      · rw [if_pos h2, if_pos ⟨c, List.mem_cons_self c l, h2⟩]
      · rw [if_neg h2, if_neg (by
          rintro ⟨x, hx1, hx2⟩
          rcases List.mem_cons.mp hx1 with he | hm
          · exact h2 (he ▸ hx2)
          · exact h1 ⟨x, hm, hx2⟩)]

theorem propogate_down_char :
    ∀ (fuel : ℕ) (r : NodeName), height r < fuel →
      ∀ (s : StatusMap) (n : NodeName),
        propogate_down fuel s r n = if n ∈ subtree r then notRequired else s n := by
  intro fuel
  induction fuel with
  | zero =>
    intro r hr
    exact absurd hr (Nat.not_lt_zero _)
  | succ f ih =>
    intro r hr s n
    have hch : ∀ c ∈ children r, height c < f := by
      intro c hc
      have h1 := children_height r c hc
      omega
    show ((children r).foldl (propogate_down f) (Function.update s r notRequired)) n
      = if n ∈ subtree r then notRequired else s n
    rw [foldl_propogate_down_char f ih (children r) hch
        (Function.update s r notRequired) n]
    by_cases hex : ∃ c ∈ children r, n ∈ subtree c
    · rw [if_pos hex, if_pos ((subtree_mem_iff r n).mpr (Or.inr hex))]
    · rw [if_neg hex, Function.update_apply]
      by_cases he : n = r
      · rw [if_pos he, if_pos ((subtree_mem_iff r n).mpr (Or.inl he))]
      · rw [if_neg he, if_neg (fun hm => by
          rcases (subtree_mem_iff r n).mp hm with h | h
          · exact he h
          · exact hex h)]

theorem mem_desc_list_iff : ∀ X n : NodeName,
    n ∈ desc_list X ↔ ∃ c ∈ children X, n ∈ subtree c := by
  decide

theorem not_self_mem_desc_list : ∀ X : NodeName, X ∉ desc_list X := by
  decide

theorem children_height_13 : ∀ X : NodeName, ∀ c ∈ children X, height c < 13 := by
  decide

/-- The status map after the Supplied assignment and the downward
propagation of one update_status(X, Supplied) event, before the upward
walks. -/
theorem supplied_down_char (s : StatusMap) (X : NodeName) (n : NodeName) :
    ((children X).foldl (propogate_down 13) (Function.update s X supplied)) n
      = if n ∈ desc_list X then notRequired
        else if n = X then supplied else s n := by
  rw [foldl_propogate_down_char 13 (propogate_down_char 13) (children X)
      (children_height_13 X) (Function.update s X supplied) n]
  rw [Function.update_apply]
  by_cases h1 : ∃ c ∈ children X, n ∈ subtree c
  · rw [if_pos h1, if_pos ((mem_desc_list_iff X n).mpr h1)]
  · rw [if_neg h1, if_neg (fun hm => h1 ((mem_desc_list_iff X n).mp hm))]

theorem walk_cf (s : StatusMap) :
    propogate_up 13 s contactFrequency
      = step_up risk (step_up lossEventFrequency (step_up threatEventFrequency s)) := rfl

theorem walk_poa (s : StatusMap) :
    propogate_up 13 s probabilityOfAction
      = step_up risk (step_up lossEventFrequency (step_up threatEventFrequency s)) := rfl

theorem walk_cs (s : StatusMap) :
    propogate_up 13 s controlStrength
      = step_up risk (step_up lossEventFrequency (step_up vulnerability s)) := rfl

theorem walk_tc (s : StatusMap) :
    propogate_up 13 s threatCapability
      = step_up risk (step_up lossEventFrequency (step_up vulnerability s)) := rfl

theorem walk_pl (s : StatusMap) :
    propogate_up 13 s primaryLoss
      = step_up risk (step_up lossMagnitude s) := rfl

theorem walk_slef (s : StatusMap) :
    propogate_up 13 s secondaryLossEventFrequency
      = step_up risk (step_up lossMagnitude (step_up secondaryLoss s)) := rfl

theorem walk_slem (s : StatusMap) :
    propogate_up 13 s secondaryLossEventMagnitude
      = step_up risk (step_up lossMagnitude (step_up secondaryLoss s)) := rfl

/-- The seven upward walks of one Supplied event are exactly the
steps_list sequence of parent checks. -/
theorem up_phase_eq (s : StatusMap) :
    leaves_list.foldl (propogate_up 13) s = steps_apply steps_list s := by
  simp only [leaves_list, List.foldl_cons, List.foldl_nil]
  rw [walk_cf, walk_poa, walk_cs, walk_tc, walk_pl, walk_slef, walk_slem]
  simp only [steps_apply, steps_list, List.foldl_cons, List.foldl_nil]

/-- The statuses of update_status(X, Supplied) unfolded to the two
propagation phases. -/
theorem update_status_supplied_phases (t : Tree) (X : NodeName) :
    (t.update_status X supplied).statuses
      = leaves_list.foldl (propogate_up 13)
          ((children X).foldl (propogate_down 13)
            (Function.update t.statuses X supplied)) := by
  simp only [Tree.update_status, if_pos]

/-- Full characterization of the statuses after update_status(X,
Supplied): the upward promotion pass applied to the supplied-and-
propagated-down map. -/
theorem update_status_supplied_statuses (t : Tree) (X : NodeName) :
    (t.update_status X supplied).statuses
      = steps_apply steps_list (supplied_down_map t.statuses X) := by
  rw [update_status_supplied_phases, up_phase_eq]
  exact congrArg (steps_apply steps_list)
    (funext fun n => supplied_down_char t.statuses X n)

theorem supplied_down_map_self (s : StatusMap) (X : NodeName) :
    supplied_down_map s X X = supplied := by
  unfold supplied_down_map
  rw [if_neg (not_self_mem_desc_list X), if_pos rfl]

theorem supplied_down_map_desc (s : StatusMap) {X d : NodeName}
    (hd : d ∈ desc_list X) : supplied_down_map s X d = notRequired := by
  unfold supplied_down_map
  rw [if_pos hd]

theorem supplied_down_map_other (s : StatusMap) {X n : NodeName}
    (h1 : n ∉ desc_list X) (h2 : n ≠ X) : supplied_down_map s X n = s n := by
  unfold supplied_down_map
  rw [if_neg h1, if_neg h2]

/-! ## The last parent check of each internal node within one event -/

theorem node_check_tef (s : StatusMap) (h : s threatEventFrequency = required) :
    (steps_apply steps_list s threatEventFrequency = calculable ↔
      ∀ c ∈ children threatEventFrequency,
        allows_calculation (steps_apply steps_list s c) = true) := by
  have hsplit : steps_list
      = [threatEventFrequency, lossEventFrequency, risk]
        ++ threatEventFrequency ::
          [lossEventFrequency, risk, vulnerability, lossEventFrequency, risk,
           vulnerability, lossEventFrequency, risk, lossMagnitude, risk,
           secondaryLoss, lossMagnitude, risk, secondaryLoss, lossMagnitude,
           risk] := rfl
  rw [hsplit]
  exact steps_apply_last_check _ _ _ (by decide) (by decide) (by decide) s h

theorem node_check_vuln (s : StatusMap) (h : s vulnerability = required) :
    (steps_apply steps_list s vulnerability = calculable ↔
      ∀ c ∈ children vulnerability,
        allows_calculation (steps_apply steps_list s c) = true) := by
  have hsplit : steps_list
      = [threatEventFrequency, lossEventFrequency, risk, threatEventFrequency,
         lossEventFrequency, risk, vulnerability, lossEventFrequency, risk]
        ++ vulnerability ::
          [lossEventFrequency, risk, lossMagnitude, risk, secondaryLoss,
           lossMagnitude, risk, secondaryLoss, lossMagnitude, risk] := rfl
  rw [hsplit]
  exact steps_apply_last_check _ _ _ (by decide) (by decide) (by decide) s h

theorem node_check_sl (s : StatusMap) (h : s secondaryLoss = required) :
    (steps_apply steps_list s secondaryLoss = calculable ↔
      ∀ c ∈ children secondaryLoss,
        allows_calculation (steps_apply steps_list s c) = true) := by
  have hsplit : steps_list
      = [threatEventFrequency, lossEventFrequency, risk, threatEventFrequency,
         lossEventFrequency, risk, vulnerability, lossEventFrequency, risk,
         vulnerability, lossEventFrequency, risk, lossMagnitude, risk,
         secondaryLoss, lossMagnitude, risk]
        ++ secondaryLoss :: [lossMagnitude, risk] := rfl
  rw [hsplit]
  exact steps_apply_last_check _ _ _ (by decide) (by decide) (by decide) s h

theorem node_check_lef (s : StatusMap) (h : s lossEventFrequency = required) :
    (steps_apply steps_list s lossEventFrequency = calculable ↔
      ∀ c ∈ children lossEventFrequency,
        allows_calculation (steps_apply steps_list s c) = true) := by
  have hsplit : steps_list
      = [threatEventFrequency, lossEventFrequency, risk, threatEventFrequency,
         lossEventFrequency, risk, vulnerability, lossEventFrequency, risk,
         vulnerability]
        ++ lossEventFrequency ::
          [risk, lossMagnitude, risk, secondaryLoss, lossMagnitude, risk,
           secondaryLoss, lossMagnitude, risk] := rfl
  rw [hsplit]
  exact steps_apply_last_check _ _ _ (by decide) (by decide) (by decide) s h

theorem node_check_lm (s : StatusMap) (h : s lossMagnitude = required) :
    (steps_apply steps_list s lossMagnitude = calculable ↔
      ∀ c ∈ children lossMagnitude,
        allows_calculation (steps_apply steps_list s c) = true) := by
  have hsplit : steps_list
      = [threatEventFrequency, lossEventFrequency, risk, threatEventFrequency,
         lossEventFrequency, risk, vulnerability, lossEventFrequency, risk,
         vulnerability, lossEventFrequency, risk, lossMagnitude, risk,
         secondaryLoss, lossMagnitude, risk, secondaryLoss]
        ++ lossMagnitude :: [risk] := rfl
  rw [hsplit]
  exact steps_apply_last_check _ _ _ (by decide) (by decide) (by decide) s h

theorem node_check_risk (s : StatusMap) (h : s risk = required) :
    (steps_apply steps_list s risk = calculable ↔
      ∀ c ∈ children risk,
        allows_calculation (steps_apply steps_list s c) = true) := by
  have hsplit : steps_list
      = [threatEventFrequency, lossEventFrequency, risk, threatEventFrequency,
         lossEventFrequency, risk, vulnerability, lossEventFrequency, risk,
         vulnerability, lossEventFrequency, risk, lossMagnitude, risk,
         secondaryLoss, lossMagnitude, risk, secondaryLoss, lossMagnitude]
        ++ risk :: [] := rfl
  rw [hsplit]
  exact steps_apply_last_check _ _ _ (by decide) (by decide) (by decide) s h

/-- The promotion characterization for every internal node: after the
upward walks of one event, a node that entered them Required is
Calculable exactly when all its children ended the event able to allow
calculation. -/
theorem node_check_internal (a : NodeName) (ha : a ∈ internal_nodes)
    (s : StatusMap) (h : s a = required) :
    (steps_apply steps_list s a = calculable ↔
      ∀ c ∈ children a,
        allows_calculation (steps_apply steps_list s c) = true) := by
  fin_cases ha
  · exact node_check_tef s h
  · exact node_check_vuln s h
  · exact node_check_sl s h
  · exact node_check_lef s h
  · exact node_check_lm s h
  · exact node_check_risk s h

theorem ancestors_internal : ∀ X a : NodeName,
    a ∈ ancestors X → a ∈ internal_nodes := by decide

theorem ancestors_not_desc : ∀ X a : NodeName,
    a ∈ ancestors X → a ∉ desc_list X := by decide

theorem ancestors_ne : ∀ X a : NodeName, a ∈ ancestors X → a ≠ X := by decide

theorem mem_dfs_list : ∀ n : NodeName, n ∈ dfs_list := by decide

theorem update_status_calculated_statuses (t : Tree) (X : NodeName) :
    (t.update_status X calculated).statuses
      = Function.update t.statuses X calculated := by
  simp [Tree.update_status]

/-! ## Claim C3 -/

/-- C3: for every node X of the 13-node tree, update_status(X,
"Supplied") sets X to Supplied and marks every strict descendant of X
Not Required; an ancestor of X that was still Required is promoted to
Calculable exactly when all children of that ancestor end the event
with a status in the set Calculable, Calculated, Supplied, and an
ancestor with any child outside that set keeps status Required.  The
iff is stated against the post-event statuses, so promotion cascades
through several levels within the one Supplied event. -/
theorem c3_supplied_propagation (t : Tree) (X : NodeName) :
    ((t.update_status X supplied).statuses X = supplied)
    ∧ (∀ d ∈ desc_list X,
        (t.update_status X supplied).statuses d = notRequired)
    ∧ (∀ a ∈ ancestors X, t.statuses a = required →
        (((t.update_status X supplied).statuses a = calculable ↔
            ∀ c ∈ children a,
              allows_calculation ((t.update_status X supplied).statuses c) = true)
          ∧ ((¬ ∀ c ∈ children a,
                allows_calculation
                  ((t.update_status X supplied).statuses c) = true) →
              (t.update_status X supplied).statuses a = required))) := by
  rw [update_status_supplied_statuses t X]
  refine ⟨?_, ?_, ?_⟩
  · have h0 : supplied_down_map t.statuses X X = supplied :=
      supplied_down_map_self t.statuses X
    rw [steps_apply_ne_required steps_list _ X (by rw [h0]; simp), h0]
  · intro d hd
    have h0 : supplied_down_map t.statuses X d = notRequired :=
      supplied_down_map_desc t.statuses hd
    rw [steps_apply_ne_required steps_list _ d (by rw [h0]; simp), h0]
  · intro a ha hreq
    have h1 : supplied_down_map t.statuses X a = required := by
      rw [supplied_down_map_other t.statuses
        (ancestors_not_desc X a ha) (ancestors_ne X a ha)]
      exact hreq
    constructor
    · exact node_check_internal a (ancestors_internal X a ha) _ h1
    · intro hnot
      rcases steps_apply_changes steps_list (supplied_down_map t.statuses X) a
        with h2 | h2
      · rw [h2, h1]
      · exact absurd
          ((node_check_internal a (ancestors_internal X a ha) _ h1).mp h2.2)
          hnot

/-- Witness for C3 at a concrete cascading input: in tree_c3, supplying
Control Strength promotes Vulnerability, Loss Event Frequency and Risk
to Calculable in one event. -/
theorem c3_supplied_propagation_witness :
    tree_c3.statuses vulnerability = required
    ∧ (tree_c3.update_status controlStrength supplied).statuses
        vulnerability = calculable
    ∧ (tree_c3.update_status controlStrength supplied).statuses
        lossEventFrequency = calculable
    ∧ (tree_c3.update_status controlStrength supplied).statuses
        risk = calculable :=
  ⟨by decide,
   ((c3_supplied_propagation tree_c3 controlStrength).2.2 vulnerability
      (by decide) (by decide)).1.mpr (by decide),
   ((c3_supplied_propagation tree_c3 controlStrength).2.2 lossEventFrequency
      (by decide) (by decide)).1.mpr (by decide),
   ((c3_supplied_propagation tree_c3 controlStrength).2.2 risk
      (by decide) (by decide)).1.mpr (by decide)⟩

/-! ## Claim C8 -/

/-- C8 counterexample: the claimed state machine forbids leaving
Supplied, but supplying Control Strength and then supplying its parent
Vulnerability demotes Control Strength from Supplied to Not Required
through the downward propagation. -/
theorem c8_supplied_demoted_counterexample :
    ((fresh_tree.update_status controlStrength supplied).statuses
        controlStrength = supplied)
    ∧ (((fresh_tree.update_status controlStrength supplied).update_status
          vulnerability supplied).statuses controlStrength = notRequired) := by
  decide

/-- C8 amended: under update_status with the statuses the model ever
passes (Supplied or Calculated), a node changes status only by (a)
being the named node, which is set to the given status from any prior
status, (b) being a strict descendant of a Supplied node, which is set
to Not Required from any prior status, or (c) an upward promotion of a
Required node to Calculable; consequently no node ever moves back to
Required. -/
theorem c8_transitions (t : Tree) (X : NodeName) (st : Status)
    (hst : st = supplied ∨ st = calculated) (n : NodeName) :
    ((t.update_status X st).statuses n ≠ t.statuses n →
      ((n = X ∧ (t.update_status X st).statuses n = st)
        ∨ (st = supplied ∧ n ∈ desc_list X
            ∧ (t.update_status X st).statuses n = notRequired)
        ∨ (st = supplied ∧ t.statuses n = required
            ∧ (t.update_status X st).statuses n = calculable)))
    ∧ ((t.update_status X st).statuses n = required →
        t.statuses n = required) := by
  rcases hst with hs | hcal
  · subst hs
    rw [update_status_supplied_statuses t X]
    by_cases hd : n ∈ desc_list X
    · have h0 : supplied_down_map t.statuses X n = notRequired :=
        supplied_down_map_desc t.statuses hd
      have h1 : steps_apply steps_list (supplied_down_map t.statuses X) n
          = notRequired := by
        rw [steps_apply_ne_required steps_list _ n (by rw [h0]; simp), h0]
      rw [h1]
      exact ⟨fun _ => Or.inr (Or.inl ⟨rfl, hd, rfl⟩), fun hc => absurd hc (by simp)⟩
    · by_cases hX : n = X
      · subst hX
        have h0 : supplied_down_map t.statuses n n = supplied :=
          supplied_down_map_self t.statuses n
        have h1 : steps_apply steps_list (supplied_down_map t.statuses n) n
            = supplied := by
          rw [steps_apply_ne_required steps_list _ n (by rw [h0]; simp), h0]
        rw [h1]
        exact ⟨fun _ => Or.inl ⟨rfl, rfl⟩, fun hc => absurd hc (by simp)⟩
      · have h0 : supplied_down_map t.statuses X n = t.statuses n :=
          supplied_down_map_other t.statuses hd hX
        rcases steps_apply_changes steps_list (supplied_down_map t.statuses X) n
          with h2 | h2
        · rw [h2, h0]
          exact ⟨fun hc => absurd rfl hc, fun hc => hc⟩
        · rw [h2.2]
          refine ⟨fun _ => Or.inr (Or.inr ⟨rfl, ?_, rfl⟩),
                  fun hc => absurd hc (by simp)⟩
          rw [← h0]
          exact h2.1
  · subst hcal
    rw [update_status_calculated_statuses t X, Function.update_apply]
    by_cases hX : n = X
    · rw [if_pos hX]
      exact ⟨fun _ => Or.inl ⟨hX, rfl⟩, fun hc => absurd hc (by simp)⟩
    · rw [if_neg hX]
      exact ⟨fun hc => absurd rfl hc, fun hc => hc⟩

/-! ## Claim C1 -/

/-- C1: for a model with n_simulations = 100, supplying "Loss Event
Frequency" with constant=10 and "Loss Magnitude" with constant=100 and
then calling calculate_all raises nothing, and the exported "Risk"
column is a vector of length 100 in which every element is exactly
1000.0 (the list List.replicate 100 1000). -/
theorem c1_constant_scenario_risk :
    (input_data model_0 "Loss Event Frequency" [("constant", 10)]).1 = .ok ()
    ∧ (input_data model_1 "Loss Magnitude" [("constant", 100)]).1 = .ok ()
    ∧ (calculate_all model_2).toOption.map (fun m => export_results m risk)
        = some (some (List.replicate 100 1000))
    ∧ (List.replicate 100 (1000 : ℚ)).length = 100 := by
  refine ⟨?_, ?_, ?_, ?_⟩
  · with_unfolding_all rfl
  · with_unfolding_all rfl
  · with_unfolding_all rfl
  · rfl

/-! ## Claim C2 -/

/-- C2: the claim requires calculate_all to raise a NotReadyError with
the full status snapshot whenever any node is still Required, including
on a freshly constructed model.  The code only consults the
_node_statuses cache dict, which a fresh FairDependencyTree leaves
empty, so ready_for_calculation returns True on a fresh model and
calculate_all returns successfully even though all 13 node objects are
Required; once any update_status call has filled the cache the claimed
error with the full per-node snapshot is raised. -/
theorem c2_not_ready_error :
    (∀ n : NodeName, model_0.tree.statuses n = required)
    ∧ calculate_all model_0 = .ok model_0
    ∧ (∀ m : FairModel, m.tree.cacheFilled = true →
        ∀ n : NodeName, m.tree.statuses n = required →
          calculate_all m = .error (.notReady m.tree.get_node_statuses)) := by
  refine ⟨fun n => rfl, by with_unfolding_all rfl, ?_⟩
  intro m hc n hn
  have hany : m.tree.get_node_statuses.any
      (fun p => decide (p.2 = required)) = true := by
    unfold Tree.get_node_statuses
    rw [if_pos hc, List.any_eq_true]
    exact ⟨(n, m.tree.statuses n), List.mem_map.mpr ⟨n, mem_dfs_list n, rfl⟩,
      by simp [hn]⟩
  have hready : m.tree.ready_for_calculation = false := by
    unfold Tree.ready_for_calculation
    rw [hany]
    rfl
  unfold calculate_all
  rw [hready]
  rfl

/-- Witness for C2: the model that has only "Loss Event Frequency"
supplied still has Loss Magnitude Required, and calculate_all raises
carrying the full status snapshot. -/
theorem c2_not_ready_error_witness :
    model_1.tree.cacheFilled = true
    ∧ model_1.tree.statuses lossMagnitude = required
    ∧ calculate_all model_1 = .error (.notReady model_1.tree.get_node_statuses) :=
  ⟨by decide, by decide,
   c2_not_ready_error.2.2 model_1 (by decide) lossMagnitude (by decide)⟩

/-! ## Claim C4 -/

/-- C4: the Vulnerability combinator applied to Control Strength data
(first argument) and Threat Capability data (second argument) returns a
vector of the same length whose every element is the mean of the
element-wise boolean vector control_strength < threat_capability; for
constant inputs 0.3 and 0.8 it is all ones, and with the two arguments
swapped it is all zeros. -/
theorem c4_vulnerability_step_average (a b : List ℚ) (hlen : a.length = b.length) :
    calculate vulnerability a b = some (calculate_step_average a b)
    ∧ (calculate_step_average a b).length = a.length
    ∧ (∀ x ∈ calculate_step_average a b,
        x = (List.zipWith (fun x y => if x < y then (1 : ℚ) else 0) a b).sum
              / (a.length : ℚ))
    ∧ (∀ n : ℕ,
        calculate_step_average (List.replicate n (3/10)) (List.replicate n (8/10))
          = List.replicate n 1)
    ∧ (∀ n : ℕ,
        calculate_step_average (List.replicate n (8/10)) (List.replicate n (3/10))
          = List.replicate n 0) := by
  have hzlen : ∀ (u v : List ℚ), u.length = v.length →
      (List.zipWith (fun x y => if x < y then (1 : ℚ) else 0) u v).length
        = u.length := by
    intro u v huv
    rw [List.length_zipWith, huv, min_self]
  refine ⟨rfl, ?_, ?_, ?_, ?_⟩
  · unfold calculate_step_average
    rw [List.length_replicate, hzlen a b hlen]
  · intro x hx
    unfold calculate_step_average at hx
    rw [List.eq_of_mem_replicate hx, hzlen a b hlen]
  · intro n
    have hif : (3 : ℚ)/10 < 8/10 := by norm_num
    simp only [calculate_step_average, List.zipWith_replicate, min_self,
      if_pos hif, List.sum_replicate, List.length_replicate, nsmul_eq_mul,
      mul_one]
    cases n with
    | zero => rfl
    | succ k => rw [div_self (by positivity)]
  · intro n
    have hif : ¬((8 : ℚ)/10 < 3/10) := by norm_num
    simp only [calculate_step_average, List.zipWith_replicate, min_self,
      if_neg hif, List.sum_replicate, List.length_replicate, smul_zero,
      zero_div]

/-- Witness for C4 at one-element vectors. -/
theorem c4_vulnerability_step_average_witness :
    [(3 : ℚ)/10].length = [(8 : ℚ)/10].length
    ∧ (calculate vulnerability [(3 : ℚ)/10] [(8 : ℚ)/10]
        = some (calculate_step_average [(3 : ℚ)/10] [(8 : ℚ)/10])
      ∧ (calculate_step_average [(3 : ℚ)/10] [(8 : ℚ)/10]).length
          = [(3 : ℚ)/10].length
      ∧ (∀ x ∈ calculate_step_average [(3 : ℚ)/10] [(8 : ℚ)/10],
          x = (List.zipWith (fun x y => if x < y then (1 : ℚ) else 0)
                  [(3 : ℚ)/10] [(8 : ℚ)/10]).sum / (([(3 : ℚ)/10]).length : ℚ))
      ∧ (∀ n : ℕ,
          calculate_step_average (List.replicate n (3/10)) (List.replicate n (8/10))
            = List.replicate n 1)
      ∧ (∀ n : ℕ,
          calculate_step_average (List.replicate n (8/10)) (List.replicate n (3/10))
            = List.replicate n 0)) :=
  ⟨rfl, c4_vulnerability_step_average [(3 : ℚ)/10] [(8 : ℚ)/10] rfl⟩

/-! ## Claim C5 -/

/-- C5: the claim requires input_data with a valid PERT parameter set
(low, mode, high) to succeed and write a vector.  In the code,
FairModel.input_data renames the keyword mode to most_likely before
calling FairDataInput.generate, but FairDataInput._parameter_map only
recognizes mode, so _determine_func raises a FairException naming
most_likely as an unrecognized keyword for every PERT input — whether
the caller writes mode or most_likely — and no vector is ever written.
This contradicts the docstring of input_data and the test suite. -/
theorem c5_pert_input_data_raises :
    (input_data model_0 "Loss Event Frequency"
        [("low", 1), ("mode", 2), ("high", 3)]).1
      = .error (.unrecognizedKeyword "most_likely")
    ∧ (input_data model_0 "Loss Event Frequency"
        [("low", 1), ("mode", 2), ("high", 3)]).2.supplied = []
    ∧ (input_data model_0 "Loss Event Frequency"
        [("low", 1), ("mode", 2), ("high", 3)]).2.table lossEventFrequency
      = none
    ∧ (input_data model_0 "Loss Event Frequency"
        [("low", 1), ("most_likely", 2), ("high", 3)]).1
      = .error (.unrecognizedKeyword "most_likely") := by
  refine ⟨?_, ?_, ?_, ?_⟩ <;> with_unfolding_all rfl

/-! ## Claim C6 -/

/-- C6 counterexample: after a completed calculation (model_3 with Risk
= 1000 vector), re-supplying "Loss Event Frequency" with constant=20
succeeds and overwrites that node, but calculate_all recomputes
nothing: the exported Risk vector is still the stale 1000 vector, not
the 20 * 100 = 2000 vector the claim requires. -/
theorem c6_resupply_counterexample :
    (input_data model_3 "Loss Event Frequency" [("constant", 20)]).1 = .ok ()
    ∧ model_4.table lossEventFrequency = some (List.replicate 100 20)
    ∧ model_3.table risk = some (List.replicate 100 1000)
    ∧ (calculate_all model_4).toOption.map (fun m => m.table risk)
        = some (some (List.replicate 100 1000))
    ∧ List.replicate 100 (1000 : ℚ) ≠ List.replicate 100 (2000 : ℚ) := by
  refine ⟨?_, ?_, ?_, ?_, ?_⟩
  · with_unfolding_all rfl
  · with_unfolding_all rfl
  · with_unfolding_all rfl
  · with_unfolding_all rfl
  · with_unfolding_all decide

/-- C6 amended: re-supplying an input after a completed calculation is
permitted and overwrites only that node.  It does not reopen downstream
nodes: update_status never demotes a Calculated node, so a model state
with no Calculable and no Required node (exactly what re-supplying into
a finished model produces) makes calculate_all return the model
unchanged — every previously calculated downstream vector, Risk
included, keeps its pre-resupply value. -/
theorem c6_no_reopen (m : FairModel)
    (hcalc : ∀ n : NodeName, m.tree.statuses n ≠ calculable)
    (hreq : ∀ n : NodeName, m.tree.statuses n ≠ required) :
    calculate_all m = .ok m := by
  have hstat : ∀ p ∈ m.tree.get_node_statuses,
      p.2 ≠ required ∧ p.2 ≠ calculable := by
    intro p hp
    unfold Tree.get_node_statuses at hp
    by_cases hc : m.tree.cacheFilled = true
    · rw [if_pos hc] at hp
      rcases List.mem_map.mp hp with ⟨n, _, rfl⟩
      exact ⟨hreq n, hcalc n⟩
    · rw [if_neg hc] at hp
      exact absurd hp (List.not_mem_nil p)
  have hany : m.tree.get_node_statuses.any
      (fun p => decide (p.2 = required)) = false := by
    rw [List.any_eq_false]
    intro p hp
    simp [(hstat p hp).1]
  have hready : m.tree.ready_for_calculation = true := by
    unfold Tree.ready_for_calculation
    rw [hany]
    rfl
  have hfilter : m.tree.get_node_statuses.filter
      (fun p => decide (p.2 = calculable)) = [] := by
    rw [List.filter_eq_nil_iff]
    intro p hp
    simp [(hstat p hp).2]
  unfold calculate_all
  rw [hready]
  show Except.ok (calculate_loop 169
    m ((m.tree.get_node_statuses.filter (fun p => decide (p.2 = calculable))).map
        Prod.fst)) = Except.ok m
  rw [hfilter]
  rfl

/-- Witness for C6 at the concrete re-supplied model: model_4 has no
Calculable and no Required node, and calculate_all returns it
unchanged. -/
theorem c6_no_reopen_witness :
    (∀ n : NodeName, model_4.tree.statuses n ≠ calculable)
    ∧ (∀ n : NodeName, model_4.tree.statuses n ≠ required)
    ∧ calculate_all model_4 = .ok model_4 :=
  ⟨by decide, by decide, c6_no_reopen model_4 (by decide) (by decide)⟩

/-! ## Claim C7 -/

/-- C7: for every valid PERT input with the default gamma = 4, the
FairBetaPert parameterization equals exactly the spec formulas for
mean, stdev, alpha and beta, and the frozen scipy curve is
Beta(alpha, beta) with loc = low and scale = high - low, so the
sampled values are the standard Beta(alpha, beta) draws shifted by low
and scaled by high - low. -/
theorem c7_pert_parameterization (low mode high : ℚ)
    (_h1 : low ≤ mode) (_h2 : mode ≤ high) (h3 : low < high) :
    ∃ p : FairBetaPert, mkFairBetaPert low mode high 4 = .ok p
      ∧ p.mean = pert_spec_mean low mode high 4
      ∧ p.stdev = pert_spec_stdev low mode high 4
      ∧ p.alpha = pert_spec_alpha low mode high 4
      ∧ p.beta = pert_spec_beta low mode high 4
      ∧ p.curve = { a := p.alpha, b := p.beta, loc := low, scale := high - low }
      ∧ (∀ (f : ℚ → ℚ → ℕ → ℚ) (count : ℕ),
          p.random_variates f count
            = (List.range count).map
                (fun i => low + (high - low) * f p.alpha p.beta i)) := by
  have hr : ¬(high - low = 0) := sub_ne_zero.mpr (ne_of_gt h3)
  obtain ⟨p, hp⟩ : ∃ p, mkFairBetaPert low mode high 4 = .ok p := by
    simp only [mkFairBetaPert]
    rw [if_neg hr]
    exact ⟨_, rfl⟩
  have hp2 := hp
  simp only [mkFairBetaPert] at hp2
  rw [if_neg hr] at hp2
  obtain rfl := (Except.ok.inj hp2).symm
  exact ⟨_, hp, rfl, rfl, rfl, rfl, rfl, fun f count => rfl⟩

/-- Witness for C7 at low = 0, mode = 1, high = 2. -/
theorem c7_pert_parameterization_witness :
    (0 : ℚ) ≤ 1 ∧ (1 : ℚ) ≤ 2 ∧ (0 : ℚ) < 2
    ∧ ∃ p : FairBetaPert, mkFairBetaPert 0 1 2 4 = .ok p
      ∧ p.mean = pert_spec_mean 0 1 2 4
      ∧ p.stdev = pert_spec_stdev 0 1 2 4
      ∧ p.alpha = pert_spec_alpha 0 1 2 4
      ∧ p.beta = pert_spec_beta 0 1 2 4
      ∧ p.curve = { a := p.alpha, b := p.beta, loc := 0, scale := 2 - 0 }
      ∧ (∀ (f : ℚ → ℚ → ℕ → ℚ) (count : ℕ),
          p.random_variates f count
            = (List.range count).map
                (fun i => 0 + (2 - 0) * f p.alpha p.beta i)) :=
  ⟨by norm_num, by norm_num, by norm_num,
   c7_pert_parameterization 0 1 2 (by norm_num) (by norm_num) (by norm_num)⟩

/-! ## Claim C9 -/

/-- C9 counterexample: constructing model B (seed 43) between the
construction of model A (seed 42) and the first vector A generates
changes the vector A gets — the generated values depend on the
process-global stream, not on a model-scoped generator. -/
theorem c9_interleaving_counterexample :
    run_interleaved 42 43 0 1 1 ≠ run_alone 42 0 1 1 := by
  with_unfolding_all decide

/-- C9 amended: np.random.seed makes the sampling state process-global:
the vector a model draws is a function of the last seed applied to the
process, so the interleaved run equals what a model seeded with the
interloper seed would draw alone, and whenever the two seeds differ
(and the draw is non-degenerate) the interleaved vector differs from
the non-interleaved one.  Reproducibility holds only for runs with the
same global-stream history. -/
theorem c9_global_stream (seed_a seed_b : ℤ) (hne : seed_a ≠ seed_b)
    (mean stdev : ℚ) (hsd : stdev ≠ 0) (count : ℕ) (hc : 0 < count) :
    run_interleaved seed_a seed_b mean stdev count
      = run_alone seed_b mean stdev count
    ∧ run_interleaved seed_a seed_b mean stdev count
      ≠ run_alone seed_a mean stdev count := by
  refine ⟨rfl, fun heq => ?_⟩
  have h0 : (run_interleaved seed_a seed_b mean stdev count)[0]?
      = (run_alone seed_a mean stdev count)[0]? := by rw [heq]
  unfold run_interleaved run_alone at h0
  rw [List.getElem?_map, List.getElem?_map, List.getElem?_range hc] at h0
  simp only [Option.map_some', Option.some.injEq] at h0
  have h1 : rng_value ((np_seed seed_b).1, (np_seed seed_b).2 + 0)
      = rng_value ((np_seed seed_a).1, (np_seed seed_a).2 + 0) :=
    mul_left_cancel₀ hsd (add_left_cancel h0)
  unfold rng_value np_seed at h1
  simp only [Nat.cast_zero, Nat.cast_add, add_zero, Int.cast_inj] at h1
  exact hne h1.symm

/-- Witness for C9 at seeds 42 and 43 with a one-element standard draw. -/
theorem c9_global_stream_witness :
    (42 : ℤ) ≠ 43 ∧ (1 : ℚ) ≠ 0 ∧ 0 < 1
    ∧ (run_interleaved 42 43 0 1 1 = run_alone 43 0 1 1
      ∧ run_interleaved 42 43 0 1 1 ≠ run_alone 42 0 1 1) :=
  ⟨by decide, by norm_num, by norm_num,
   c9_global_stream 42 43 (by decide) 0 1 (by norm_num) 1 (by norm_num)⟩

/-! ## Claim C10 -/

theorem clip_0_inf_of_nonneg {c : ℚ} (hc : 0 ≤ c) : clip_0_inf c = c := by
  unfold clip_0_inf
  rw [if_neg (not_lt.mpr hc)]

/-- A constant generation with a nonnegative value for an unbounded
target succeeds and returns the filled vector without touching the
random stream. -/
theorem generate_single_constant (target : String) (count : ℕ) (c : ℚ)
    (hc : 0 ≤ c) (hle : le_1_targets.contains target = false) (rng : RngState) :
    generate_single target count [("constant", c)] rng
      = .ok (List.replicate count c, rng) := by
  have hneg : decide (c < 0) = false := decide_eq_false (not_lt.mpr hc)
  have hcp : check_parameters GenFunc.genConstant [("constant", c)] = .ok () := by
    unfold check_parameters
    simp only [List.find?, List.contains_cons, hneg, Bool.and_false]
    rfl
  have hdf : determine_func [("constant", c)] = .ok GenFunc.genConstant := by
    with_unfolding_all rfl
  unfold generate_single
  rw [hle]
  simp only [Bool.false_eq_true, if_false, hdf, hcp, bind, Except.bind,
    gen_constant, dict_get, Except.map, List.map_replicate,
    clip_0_inf_of_nonneg hc]
  show Except.ok (List.map clip_0_inf (List.replicate count c), rng)
      = Except.ok (List.replicate count c, rng)
  rw [List.map_replicate, clip_0_inf_of_nonneg hc]

/-- C10: input_data with a nonnegative constant for a target that is
neither one of the 13 node names nor an abbreviation raises the
KeyError of the tree node lookup only after FairDataInput.generate has
recorded the parameters, so export_params afterwards contains the
unknown target entry while the tree and the model table are unchanged —
the model state is not left unchanged on this error. -/
theorem c10_unknown_target_records_params (m : FairModel) (t : String)
    (c : ℚ) (hc : 0 ≤ c) (hstd : standardize_target t = t)
    (hunk : to_node_name t = none) :
    (input_data m t [("constant", c)]).1 = .error (.keyError t)
    ∧ export_params (input_data m t [("constant", c)]).2
        = supplied_set m.supplied t [("constant", c)]
    ∧ (input_data m t [("constant", c)]).2.tree = m.tree
    ∧ (input_data m t [("constant", c)]).2.table = m.table := by
  have hle : le_1_targets.contains t = false := by
    cases hcon : le_1_targets.contains t with
    | false => rfl
    | true =>
      exfalso
      have hmem : t ∈ le_1_targets := by simpa using hcon
      fin_cases hmem <;> exact absurd hunk (by decide)
  have hgen := generate_single_constant t m.n_simulations c hc hle m.rng
  have hmode : dict_has [("constant", c)] "mode" = false := by
    with_unfolding_all rfl
  have hlow : (dict_has [("constant", c)] "low"
      && !(dict_has [("constant", c)] "gamma")) = false := by
    with_unfolding_all rfl
  unfold input_data
  simp only [hmode, Bool.false_eq_true, if_false, hstd, hgen, hlow, hunk]
  exact ⟨trivial, rfl, trivial, trivial⟩

/-- Witness for C10 with the unknown target "Bogus" and constant 5 on a
fresh model. -/
theorem c10_unknown_target_records_params_witness :
    (0 : ℚ) ≤ 5 ∧ standardize_target "Bogus" = "Bogus"
    ∧ to_node_name "Bogus" = none
    ∧ ((input_data model_0 "Bogus" [("constant", 5)]).1
          = .error (.keyError "Bogus")
      ∧ export_params (input_data model_0 "Bogus" [("constant", 5)]).2
          = supplied_set model_0.supplied "Bogus" [("constant", 5)]
      ∧ (input_data model_0 "Bogus" [("constant", 5)]).2.tree = model_0.tree
      ∧ (input_data model_0 "Bogus" [("constant", 5)]).2.table
          = model_0.table) :=
  ⟨by norm_num, by with_unfolding_all rfl, by with_unfolding_all rfl,
   c10_unknown_target_records_params model_0 "Bogus" 5 (by norm_num)
     (by with_unfolding_all rfl) (by with_unfolding_all rfl)⟩

/-- Witness for C8 at a concrete input: the transition characterization
applied to supplying Loss Event Frequency on a fresh tree, observed at
the node Vulnerability. -/
theorem c8_transitions_witness :
    (((fresh_tree.update_status lossEventFrequency supplied).statuses
          vulnerability ≠ fresh_tree.statuses vulnerability →
        ((vulnerability = lossEventFrequency
            ∧ (fresh_tree.update_status lossEventFrequency supplied).statuses
                vulnerability = supplied)
          ∨ (supplied = supplied ∧ vulnerability ∈ desc_list lossEventFrequency
              ∧ (fresh_tree.update_status lossEventFrequency supplied).statuses
                  vulnerability = notRequired)
          ∨ (supplied = supplied
              ∧ fresh_tree.statuses vulnerability = required
              ∧ (fresh_tree.update_status lossEventFrequency supplied).statuses
                  vulnerability = calculable)))
      ∧ ((fresh_tree.update_status lossEventFrequency supplied).statuses
            vulnerability = required →
          fresh_tree.statuses vulnerability = required)) :=
  c8_transitions fresh_tree lossEventFrequency supplied (Or.inl rfl) vulnerability

end Pyfair
